import Mathlib

/-!
Verification development for the save/undo-redo persistence core
(`src/idb_backend.js`, `src/stupidrandom.js`): the moment-history state
machine with delta serialization and retention windowing, the seeded
peekable PRNG, and the lock-serialized slot-addressed save store.

Modelling conventions:
* JavaScript objects with optional properties become structures with
  `Option` fields; `hasOwnProperty`/`Object.hasOwn` becomes `Option.isSome`.
* `clone` is a deep copy; under Lean's value semantics it is the identity.
* JavaScript numbers are modelled as `Int`/`Nat` where the code only
  produces integers, and as `ℚ` in the PRNG, where every intermediate
  value reached on the claimed inputs is exactly representable as an IEEE
  double (all products stay below 2^53 and all intermediates are
  half-integers), so rational arithmetic agrees with the float arithmetic
  of the source there.
* A synchronous JS throw becomes an `Option String` error component
  returned next to the mutated state (a throw does not roll back earlier
  mutations), or an `Except String` result where no prior mutation exists.
* The asynchronous store operations are modelled on their completion
  (success) path as sequential state transformers; alongside the result
  and the successor state they record the list of storage accesses they
  perform, each access tagged `(isWrite, lockAtAccess)` with the value of
  the module-level `lock` flag at the moment of the access.
-/

namespace IdbBackend

/-! ## Delta-encoded history (`historyDeltaEncode` / `historyDeltaDecode`)

The diff/patch primitive (`Diff.diff` / `Diff.patch`) is an external
capability; the two functions below are parametrized by it.  `α` stands
for the JS value type: the encoded array holds the first full moment
followed by delta values, all of which are plain JS values in the source.
-/

/-- Loop body of `historyDeltaEncode`: for each `i ≥ 1` push
`Diff.diff(historyArr[i-1], historyArr[i])`. `prev` is `historyArr[i-1]`. -/
def deltaEncodeLoop {α : Type} (diff : α → α → α) : α → List α → List α
  | _, [] => []
  | prev, x :: xs => diff prev x :: deltaEncodeLoop diff x xs

/-- `historyDeltaEncode(historyArr)`: `[historyArr[0], Δ(0→1), Δ(1→2), …]`;
`[]` for the empty array.  (The source also returns `null` for a non-array
argument, which has no counterpart for a `List` input.) -/
def historyDeltaEncode {α : Type} (diff : α → α → α) : List α → List α
  | [] => []
  | h :: t => h :: deltaEncodeLoop diff h t

/-- Loop body of `historyDeltaDecode`: for each `i ≥ 1` push
`Diff.patch(historyArr[i-1], delta[i])`. `prev` is `historyArr[i-1]`. -/
def deltaDecodeLoop {α : Type} (patch : α → α → α) : α → List α → List α
  | _, [] => []
  | prev, d :: ds =>
      let next := patch prev d
      next :: deltaDecodeLoop patch next ds

/-- `historyDeltaDecode(delta)`: starts from `clone(delta[0])` and applies
`Diff.patch` against the previously reconstructed entry; `[]` for the
empty array. -/
def historyDeltaDecode {α : Type} (patch : α → α → α) : List α → List α
  | [] => []
  | d :: ds => d :: deltaDecodeLoop patch d ds

/-! ## Moments and the history machine (`state.js` part of the bundle) -/

/-- A moment: passage title, variables snapshot (a plain string map in the
model; `funNuke` has already reduced anything else to strings), and the
optional recorded PRNG pull count. -/
structure Moment where
  title : String
  vars : List (String × String)
  pull : Option Nat
deriving Repr, DecidableEq

/-- `momentCreate(title, variables)`: defaults for null arguments; the
variables object is deep-copied (identity here). -/
def momentCreate (title : Option String) (vs : Option (List (String × String))) :
    Moment :=
  { title := title.getD "", vars := vs.getD [], pull := none }

/-- The seedable PRNG as the history machine sees it: the seed is carried
opaquely (only handed back to the constructor), the pull count is the
replay position. -/
structure PrngM where
  seed : String
  pull : Nat
deriving Repr, DecidableEq

/-- The module-level state of the history machine: `_history`, `_active`,
`_activeIndex`, `_expired`, `_prng`. -/
structure HState where
  history : List Moment
  active : Moment
  activeIndex : Int
  expired : List String
  prng : Option PrngM
deriving Repr, DecidableEq

/-- The initial story state: empty history, blank active moment, index -1. -/
def emptyHState : HState :=
  { history := [], active := momentCreate none none, activeIndex := -1,
    expired := [], prng := none }

/-- `Config.history.maxStates` / `Config.history.maxExpired`. -/
structure Config where
  maxStates : Nat
  maxExpired : Nat
deriving Repr, DecidableEq

/-- The engine defaults used by the claims (`Config.history` defaults). -/
def engineDefaults : Config := { maxStates := 100, maxExpired := 100 }

/-- `momentActivate(moment)` for a numeric argument: bounds-check the
index, deep-copy the addressed moment into `_active`, and rebuild the PRNG
at that moment's recorded pull (`new PRNG(_prng.seed, _active.pull)`; the
constructor turns an absent pull into 0).  The `:historyupdate` event
dispatch has no observable effect on this state and is elided. -/
def momentActivateIndex (st : HState) (idx : Int) : Except String HState :=
  if st.history.length = 0 then
    .error "moment activation attempted with index on empty history"
  else if idx < 0 ∨ (st.history.length : Int) ≤ idx then
    .error "moment activation attempted with out-of-bounds index"
  else
    match st.history[idx.toNat]? with
    | none => .error "moment activation attempted with out-of-bounds index"
    | some m =>
        .ok { st with active := m,
                      prng := st.prng.map (fun q => { q with pull := m.pull.getD 0 }) }

/-- Inner `while (_expired.length > maxExpired) _expired.shift()`. -/
def capExpired (maxExpired : Nat) (e : List String) : List String :=
  if e.length ≤ maxExpired then e else e.drop (e.length - maxExpired)

/-- Outer `while (historySize() > maxStates)` eviction loop of
`historyCreate`: shift the bottom moment, recording its title into
`_expired` unless `maxExpired` is 0, then cap `_expired`. -/
def truncateLoop (maxStates maxExpired : Nat) :
    List Moment → List String → List Moment × List String
  | [], e => ([], e)
  | m :: rest, e =>
      if maxStates < (m :: rest).length then
        truncateLoop maxStates maxExpired rest
          (capExpired maxExpired (if maxExpired = 0 then e else e ++ [m.title]))
      else (m :: rest, e)

/-- `historyCreate(title)`: discard the future beyond `_activeIndex`, push
a fresh moment cloning the active variables, stamp the PRNG pull onto the
new top when a PRNG is configured, evict from the bottom past `maxStates`,
then activate the new top and return `historyLength()`. -/
def historyCreate (cfg : Config) (st : HState) (title : String) :
    Except String (Int × HState) :=
  -- non-top push discards the future moments (splice from historyLength())
  let h0 := if st.activeIndex + 1 < (st.history.length : Int)
            then st.history.take (st.activeIndex + 1).toNat
            else st.history
  -- push momentCreate(title, _active.variables); when a PRNG is present
  -- the source then assigns the pull onto the just-pushed top moment
  let newM := momentCreate (some title) (some st.active.vars)
  let newTop := match st.prng with
    | none => newM
    | some q => { newM with pull := some q.pull }
  let h1 := h0 ++ [newTop]
  let (h2, e2) := truncateLoop cfg.maxStates cfg.maxExpired h1 st.expired
  let st1 := { st with history := h2, expired := e2,
                       activeIndex := (h2.length : Int) - 1 }
  match momentActivateIndex st1 st1.activeIndex with
  | .error e => .error e
  | .ok st2 => .ok (st2.activeIndex + 1, st2)

/-- `historyGoTo(index)`: no-op `false` for a null, out-of-range, or
unchanged index; otherwise move the cursor and activate. -/
def historyGoTo (st : HState) (index : Option Int) : Except String (Bool × HState) :=
  match index with
  | none => .ok (false, st)
  | some i =>
      if i < 0 ∨ (st.history.length : Int) ≤ i ∨ i = st.activeIndex then
        .ok (false, st)
      else
        match momentActivateIndex { st with activeIndex := i } i with
        | .error e => .error e
        | .ok st1 => .ok (true, st1)

/-- The C7 scenario: from an empty history,
`create("Start")`, `create("Forest")`, `goTo(0)`, `create("Cave")`. -/
def scenarioStartForestCave : Except String HState := do
  let r1 ← historyCreate engineDefaults emptyHState "Start"
  let r2 ← historyCreate engineDefaults r1.2 "Forest"
  let r3 ← historyGoTo r2.2 (some 0)
  let r4 ← historyCreate engineDefaults r3.2 "Cave"
  pure r4.2

/-! ## Retention windowing (`reduceHistorySize`) -/

/-- The session/save snapshot object handed to `reduceHistorySize`:
`index`, uncompressed `history`, and the `expired` accumulator. -/
structure SessionObj where
  index : Int
  history : List Moment
  expired : List String
deriving Repr, DecidableEq

/-- `reduceHistorySize(stateObj, targetSize)`: pick a window of
`min(history.length, targetSize)` frames around the active index (biased
per the branch structure of the source), shift the index, push the titles
of the frames sliced off the front onto `expired`, and keep the window.
A falsy `targetSize` returns early with the object untouched.
`startingIndex` is never negative, so `Int.toNat` at the slice positions
is exact. -/
def reduceHistorySize (stateObj : SessionObj) (targetSize0 : Nat) : SessionObj :=
  if targetSize0 = 0 then stateObj
  else
    let currentIndex : Int := stateObj.index
    let currentHistoryLength : Nat := stateObj.history.length
    let targetSize : Nat := min currentHistoryLength targetSize0
    let invertedIndex : Int := (currentHistoryLength : Int) - 1 - currentIndex
    let radius : Int := (targetSize / 2 : Nat)
    let startingIndex : Int :=
      if currentIndex < invertedIndex then
        if radius ≥ currentIndex then 0 else currentIndex - radius
      else
        if radius ≥ invertedIndex then (currentHistoryLength : Int) - (targetSize : Int)
        else currentIndex - radius
    { index := stateObj.index - startingIndex,
      expired := stateObj.expired
        ++ (stateObj.history.take startingIndex.toNat).map Moment.title,
      history := (stateObj.history.drop startingIndex.toNat).take targetSize }

/-! ## Snapshot restore (`stateUnmarshal`) -/

/-- The marshaled snapshot wire object: every property is optional,
mirroring `hasOwnProperty` tests in the source.  `delta` entries are the
heterogeneous `[fullMoment, Δ, …]` array; in the model both moments and
deltas inhabit `Moment` and the external patch capability is a parameter. -/
structure MarshalObj where
  index : Option Int
  history : Option (List Moment)
  delta : Option (List Moment)
  expired : Option (List String)
  seed : Option String
deriving Repr, DecidableEq

/-- The history that `stateUnmarshal` installs: the clone of `history`
when present, otherwise the delta-decoded array. -/
def unmarshalNewHistory (patch : Moment → Moment → Moment) (o : MarshalObj) :
    List Moment :=
  match o.history with
  | some h => h
  | none => historyDeltaDecode patch (o.delta.getD [])

/-- The property restore performed by `stateUnmarshal` once validation
has passed: `_history` (clone or delta-decode), `_activeIndex`,
`_expired`, and the PRNG seed (restored only when a PRNG is configured
and the snapshot carries a seed). -/
def unmarshalRestore (patch : Moment → Moment → Moment) (st : HState)
    (o : MarshalObj) : HState :=
  { st with
    history := unmarshalNewHistory patch o,
    activeIndex := o.index.getD 0,
    expired := o.expired.getD [],
    prng := match o.seed with
      | none => st.prng
      | some s => st.prng.map (fun q => { q with seed := s }) }

/-- `stateUnmarshal(stateObj)`: the four validation throws, then the
property restore (`_history`, `_activeIndex`, `_expired`, PRNG seed) and
the final `momentActivate(_activeIndex)`, whose own throw happens after
the properties have already been replaced.  Returns the state as left
behind together with the thrown message, if any.  (The `_qc` tamper
counter bookkeeping between the restore and the activation neither throws
nor touches any of the modelled fields and is elided.) -/
def stateUnmarshal (patch : Moment → Moment → Moment) (st : HState)
    (stateObj : Option MarshalObj) : HState × Option String :=
  match stateObj with
  | none => (st, some "state object is null or undefined")
  | some o =>
      let hasDelta := o.delta.isSome
      let hasHistory := o.history.isSome
      if hasDelta ∧ hasHistory then
        (st, some "state object has both compressed and uncompressed history")
      else if (hasDelta ∧ (o.delta.getD []).length = 0)
          ∨ (hasHistory ∧ (o.history.getD []).length = 0)
          ∨ (¬hasDelta ∧ ¬hasHistory) then
        (st, some "state object has no history or history is empty")
      else if o.index.isNone then
        (st, some "state object has no index")
      else
        match momentActivateIndex (unmarshalRestore patch st o) (o.index.getD 0) with
        | .error e => (unmarshalRestore patch st o, some e)
        | .ok st2 => (st2, none)

/-- The error conditions enumerated by the specification for
`stateUnmarshal` (null/undefined object, dual history representation,
absent or empty history, missing index). -/
def claimedUnmarshalError (stateObj : Option MarshalObj) : Bool :=
  match stateObj with
  | none => true
  | some o =>
      (o.delta.isSome && o.history.isSome)
      || (o.delta.isSome && (o.delta.getD []).length == 0)
      || (o.history.isSome && (o.history.getD []).length == 0)
      || (!o.delta.isSome && !o.history.isSome)
      || !o.index.isSome

/-- The further error condition the source enforces beyond the claimed
list: a structurally valid snapshot whose index lies outside the restored
history (the `momentActivate(_activeIndex)` bounds check). -/
def unmarshalIndexOutOfRange (patch : Moment → Moment → Moment)
    (stateObj : Option MarshalObj) : Bool :=
  match stateObj with
  | none => false
  | some o =>
      !claimedUnmarshalError (some o)
      && (decide (o.index.getD 0 < 0)
          || decide (((unmarshalNewHistory patch o).length : Int) ≤ o.index.getD 0))

/-! ## The save store (`idb` module)

State machine over the module-level mutable bindings (`lock`, `open`,
`saveDetails`, `settings.useDelta`) and the two object stores (`saves`,
`details`), each a slot-keyed table.  Every operation is modelled on its
completion path; the access log records `(isWrite, lockAtAccess)` per
storage access (the open request and `get`/`getAll` count as reads,
`delete`/`add`/`clear` as writes). -/

/-- A save payload: `history` xor `delta` (plus fields irrelevant here).
`hasOwnProperty("history")` is `history.isSome`. -/
structure SaveObj where
  history : Option (List Moment)
  delta : Option (List Moment)
deriving Repr, DecidableEq

/-- A details record: the slot key plus an opaque stand-in for the
`{id, title, date, metadata}` blob (drawn from `Story`/`Date.now()`). -/
structure DetailsObj where
  slot : Nat
  data : Nat
deriving Repr, DecidableEq

/-- Module-level store state. -/
structure StoreState where
  lock : Bool
  isOpen : Bool
  saves : List (Nat × SaveObj)
  details : List (Nat × DetailsObj)
  saveDetails : List DetailsObj
  useDelta : Bool
deriving Repr, DecidableEq

/-- `objectStore.get(slot)`: first record whose key matches. -/
def tableGet {α : Type} (t : List (Nat × α)) (slot : Nat) : Option α :=
  (t.find? (fun e => e.1 == slot)).map (fun e => e.2)

/-- `objectStore.delete(slot)`. -/
def tableDelete {α : Type} (t : List (Nat × α)) (slot : Nat) : List (Nat × α) :=
  t.filter (fun e => !(e.1 == slot))

/-- `objectStore.add(record)` (the preceding delete guarantees the key is
free, so `add` cannot reject on a duplicate). -/
def tableAdd {α : Type} (t : List (Nat × α)) (slot : Nat) (v : α) : List (Nat × α) :=
  t ++ [(slot, v)]

/-- Success path of `openDB()` on an already-created database: the open
request is a storage access; its `onsuccess` handler sets `lock = false`,
marks the connection open, and starts a `getSaveDetails` cache refresh
(one more read access, performed with the lock already cleared).  The
`onupgradeneeded` migration only runs for a brand-new database and is
outside this model. -/
def openDB (st : StoreState) : StoreState × List (Bool × Bool) :=
  ({ st with isOpen := true, lock := false,
             saveDetails := st.details.map (fun e => e.2) },
   [(false, st.lock), (false, false)])

/-- `getItem(slot)`: optional open, readonly `get` on `saves`, promise
resolution (which clears the lock in `makePromise`). -/
def getItem (st : StoreState) (slot : Nat) :
    Option SaveObj × StoreState × List (Bool × Bool) :=
  let opened := if st.isOpen then (st, []) else openDB st
  let st1 := opened.1
  (tableGet st1.saves slot, { st1 with lock := false },
   opened.2 ++ [(false, st1.lock)])

/-- `getAllSaves()`: optional open, readonly `getAll` on `saves`, promise
resolution (which clears the lock in `makePromise`). -/
def getAllSaves (st : StoreState) :
    List (Nat × SaveObj) × StoreState × List (Bool × Bool) :=
  let opened := if st.isOpen then (st, []) else openDB st
  let st1 := opened.1
  (st1.saves, { st1 with lock := false }, opened.2 ++ [(false, st1.lock)])

/-- `getSaveDetails()`: optional open, readonly `getAll` on `details`,
promise resolution (which clears the lock in `makePromise`). -/
def getSaveDetails (st : StoreState) :
    List DetailsObj × StoreState × List (Bool × Bool) :=
  let opened := if st.isOpen then (st, []) else openDB st
  let st1 := opened.1
  (st1.details.map (fun e => e.2), { st1 with lock := false },
   opened.2 ++ [(false, st1.lock)])

/-- What a store operation hands back to its caller. -/
inductive OpResult
  /-- synchronous `return` (undefined) while locked: nothing was done -/
  | rejected
  /-- the transaction promise resolved (with `transaction.result`, which
  is undefined for a transaction) -/
  | resolvedUndef
  /-- a promise resolved with an explicit `false` (invalid save object) -/
  | resolvedFalse
deriving Repr, DecidableEq

/-- The details record `setItem` computes when none is supplied:
`{slot, data: {id, title, date, metadata}}` with the blob opaque here. -/
def defaultDetails (slot : Nat) : DetailsObj := { slot := slot, data := 0 }

/-- `setItem(slot, saveObj, details)`: reject while locked; `false` for a
save object without its own `history` property; otherwise take the lock,
open the database if needed (whose success handler clears the lock
again), sanitize (`funNuke` — identity on the string-valued variables of
this model), optionally delta-encode the history, then run one readwrite
transaction doing delete-then-add on both tables, and resolve, clearing
the lock.  The catch branch (`resolve(false)` after clearing the lock) is
unreachable on the modelled path. -/
def setItem (diffFn : Moment → Moment → Moment) (st : StoreState) (slot : Nat)
    (saveObj : Option SaveObj) (details : Option DetailsObj) :
    OpResult × StoreState × List (Bool × Bool) :=
  if st.lock then (.rejected, st, [])
  else match saveObj with
  | none => (.resolvedFalse, st, [])
  | some obj =>
    if obj.history.isNone then (.resolvedFalse, st, [])
    else
      let st1 := { st with lock := true }
      let detailsItem := { details.getD (defaultDetails slot) with slot := slot }
      let opened := if st1.isOpen then (st1, []) else openDB st1
      let st2 := opened.1
      let stored := if st2.useDelta then
          { history := none,
            delta := some (historyDeltaEncode diffFn (obj.history.getD [])) }
        else obj
      let saves1 := tableAdd (tableDelete st2.saves slot) slot stored
      let details1 := tableAdd (tableDelete st2.details slot) slot detailsItem
      (.resolvedUndef,
       { st2 with saves := saves1, details := details1, lock := false },
       opened.2 ++ [(true, st2.lock), (true, st2.lock), (true, st2.lock), (true, st2.lock)])

/-- `deleteItem(slot)`: reject while locked; open the database if needed,
take the lock, delete the slot from both tables in one readwrite
transaction, resolve (clearing the lock), then refresh the `saveDetails`
cache from the details table. -/
def deleteItem (st : StoreState) (slot : Nat) :
    OpResult × StoreState × List (Bool × Bool) :=
  if st.lock then (.rejected, st, [])
  else
    let opened := if st.isOpen then (st, []) else openDB st
    let st1 := { opened.1 with lock := true }
    let st2 := { st1 with
      saves := tableDelete st1.saves slot,
      details := tableDelete st1.details slot,
      lock := false }
    let refreshed := getSaveDetails st2
    (.resolvedUndef, { refreshed.2.1 with saveDetails := refreshed.1 },
     opened.2 ++ [(true, st1.lock), (true, st1.lock)] ++ refreshed.2.2)

/-- `clearAll()`: reject while locked; open the database if needed, clear
both tables in one readwrite transaction, empty the cache, and resolve
(clearing the lock).  Note that, unlike `setItem`/`deleteItem`, the
source never sets `lock = true` here. -/
def clearAll (st : StoreState) : OpResult × StoreState × List (Bool × Bool) :=
  if st.lock then (.rejected, st, [])
  else
    let opened := if st.isOpen then (st, []) else openDB st
    let st1 := opened.1
    (.resolvedUndef,
     { st1 with saves := [], details := [], saveDetails := [], lock := false },
     opened.2 ++ [(true, st1.lock), (true, st1.lock)])

/-- The lock discipline asserted by the specification: every storage
access of the operation happens with the lock flag held. -/
def lockHeldThroughout (accesses : List (Bool × Bool)) : Prop :=
  ∀ a ∈ accesses, a.2 = true

/-- The weaker discipline the mutating operations actually follow (where
they follow one): every table-write access happens with the lock held. -/
def writesLocked (accesses : List (Bool × Bool)) : Prop :=
  ∀ a ∈ accesses, a.1 = true → a.2 = true

/-- The two-table slot invariant: a details record exists iff a saves
record exists for that slot. -/
def slotInvariant (st : StoreState) : Prop :=
  ∀ slot, (tableGet st.saves slot).isSome = (tableGet st.details slot).isSome

/-- Concrete fixtures for the closed counterexamples. -/
def sampleMoment : Moment := { title := "A", vars := [], pull := none }

def sampleSave : SaveObj := { history := some [sampleMoment], delta := none }

def sampleDetails : DetailsObj := { slot := 0, data := 7 }

/-- An open, unlocked store holding one save in slot 0. -/
def sampleStore : StoreState :=
  { lock := false, isOpen := true, saves := [(0, sampleSave)],
    details := [(0, sampleDetails)], saveDetails := [sampleDetails],
    useDelta := false }

/-- The same store while a mutating operation is in flight (lock held). -/
def sampleStoreLocked : StoreState := { sampleStore with lock := true }

/-- A second fixture moment. -/
def momentB : Moment := { title := "B", vars := [], pull := none }

/-- A two-moment session snapshot whose cursor sits on the newest moment. -/
def sessionAB : SessionObj :=
  { index := 1, history := [sampleMoment, momentB], expired := [] }

end IdbBackend

namespace StupidRandom

/-! ## PRNG (`src/stupidrandom.js`)

`primes`, `limiter` and `factor` are the constants of the constructor.
The source computes `limiter` as
`Math.floor(Math.sqrt(Number.MAX_SAFE_INTEGER / this.primes[9]))` and its
own comment pins the result: "incidentally, it ends up being 17623651".
The lemma `limiter_eq_floor_sqrt` checks that value against the exact
integer computation. -/

def primes : List Nat := [2, 3, 5, 7, 11, 13, 17, 19, 23, 29]

def limiter : Nat := 17623651

def factor : Nat := 12345653

/-- JavaScript `%` on the nonnegative operands that occur in `random()`
(the truncated and the floored remainder agree there). -/
def jsMod (x n : ℚ) : ℚ := x - n * (Int.floor (x / n) : ℚ)

/-- PRNG instance state.  A number seed is stored in `seed` with
`seedInt := none`; a string seed keeps the string in `seed` (irrelevant to
the arithmetic) and its `str2int` reduction in `seedInt`.  `pull` is the
count of advancing `random()` calls. -/
structure PRNG where
  seed : ℚ
  seedInt : Option ℚ
  pull : Nat
deriving Repr, DecidableEq

/-- The constructor for a number seed: `this.seed = seed`, no `seedInt`,
`this.pull = Number(pull) || 0`. -/
def PRNG.ofNumSeed (seed : ℚ) (pull : Nat) : PRNG :=
  { seed := seed, seedInt := none, pull := pull }

/-- Value computed by `random(peek)` once `this.pull` already holds the
value used in the body (i.e. after the `if (!peek) ++this.pull` line).
`seedInt || seed` is modelled by `getD`: `str2int` never returns `0`, so
a present `seedInt` is never falsy. -/
def PRNG.randomValAt (p : PRNG) (pullField : Nat) (peek : Nat) : ℚ :=
  let seed : ℚ := p.seedInt.getD p.seed
  let pull : ℤ :=
    Int.floor (jsMod ((pullField : ℚ) + (peek : ℚ) + seed * 4327) (limiter : ℚ)) + 1
  let extra : Nat := primes.getD (pull.toNat % (primes.length - 1)) 0
  jsMod ((pull : ℚ) * seed * (extra : ℚ) * (factor : ℚ)) ((limiter : ℚ) - 1)
    / (limiter : ℚ)

/-- `random(peek = 0)`: if `peek` is falsy the pull counter is incremented
first (a side effect); otherwise the state is untouched.  Returns the
produced value together with the successor state. -/
def PRNG.random (p : PRNG) (peek : Nat := 0) : ℚ × PRNG :=
  if peek = 0 then
    (p.randomValAt (p.pull + 1) peek, { p with pull := p.pull + 1 })
  else
    (p.randomValAt p.pull peek, p)

/-- Loop of `peek(depth)`: `for (let i = 1; i <= depth; ++i)
result.push(this.random(i))`, threading the (unchanged) state. -/
def PRNG.peekLoop : PRNG → Nat → Nat → List ℚ × PRNG
  | p, _, 0 => ([], p)
  | p, i, Nat.succ k =>
      let step := p.random i
      let rest := PRNG.peekLoop step.2 (i + 1) k
      (step.1 :: rest.1, rest.2)

/-- `peek(depth = 1)`: `none` models the `console.error` early return for
`depth > 9000` (a non-integer depth is unrepresentable for a `Nat`
argument). -/
def PRNG.peek (p : PRNG) (depth : Nat := 1) : Option (List ℚ × PRNG) :=
  if depth > 9000 then none
  else some (PRNG.peekLoop p 1 depth)

/-- Advancing `random()` calls iterated `n` times, collecting the values. -/
def PRNG.randomSeq : PRNG → Nat → List ℚ × PRNG
  | p, 0 => ([], p)
  | p, Nat.succ k =>
      let step := p.random 0
      let rest := PRNG.randomSeq step.2 k
      (step.1 :: rest.1, rest.2)

/-- `randomFloat([min], max, peek)`, called with all three arguments.  The
source validates `peek` (`Number.isInteger`, throwing otherwise — always
satisfied by an integer argument) but the body calls `this.random()` with
no argument, so `peek` is dropped and the call advances the counter. -/
def PRNG.randomFloat (p : PRNG) (min max : ℚ) (peek : Nat) : ℚ × PRNG :=
  let _unused := peek
  let step := p.random 0
  (step.1 * (max - min) + min, step.2)

/-- Loop of `str2int`: accumulates `(sum, count)` over the character
codes, skipping `code < 32 || code > 127`.  The input is the list of
character codes of the string (`charCodeAt` per iterated character). -/
def str2intLoop : List Nat → Nat × Nat → Nat × Nat
  | [], acc => acc
  | c :: cs, acc =>
      if c < 32 ∨ c > 127 then str2intLoop cs acc
      else str2intLoop cs (acc.1 + (c - 32), acc.2 + 1)

/-- `str2int(string)`: `count ? sum / count / 127 + 0.25 : 0.25`. -/
def str2int (codes : List Nat) : ℚ :=
  let acc := str2intLoop codes (0, 0)
  if acc.2 = 0 then 1/4 else (acc.1 : ℚ) / (acc.2 : ℚ) / 127 + 1/4

/-- The character codes kept by `str2int`: those with
`32 ≤ code ≤ 127` (the loop skips `code < 32 || code > 127`). -/
def keptCodes (codes : List Nat) : List Nat :=
  codes.filter (fun c => decide (32 ≤ c ∧ c ≤ 127))

/-- The sum accumulated by `str2int`: `code - 32` over the kept codes. -/
def keptSum (codes : List Nat) : Nat :=
  ((keptCodes codes).map (fun x => x - 32)).sum

end StupidRandom

/-!
# Theorems

First the shared lemmas, then one theorem per claim (with its witness or
counterexample where required).
-/

namespace IdbBackend

theorem deltaLoop_roundtrip {α : Type} (diff patch : α → α → α)
    (hpd : ∀ a b, patch a (diff a b) = b) :
    ∀ (t : List α) (prev : α),
      deltaDecodeLoop patch prev (deltaEncodeLoop diff prev t) = t := by
  intro t
  induction t with
  | nil => intro prev; rfl
  | cons x xs ih =>
      intro prev
      simp only [deltaEncodeLoop, deltaDecodeLoop, hpd]
      exact congrArg (x :: ·) (ih x)

end IdbBackend

namespace StupidRandom

theorem limiter_eq_floor_sqrt : limiter = Nat.sqrt (9007199254740991 / 29) := by
  have h : Nat.sqrt (9007199254740991 / 29) = 17623651 := by
    rw [show (9007199254740991 / 29 : Nat) = 310593077749689 by norm_num]
    rw [show (310593077749689 : Nat) = 17623651 * 17623651 + 3179888 by norm_num]
    apply Nat.sqrt_add_eq
    norm_num
  rw [h]; rfl

/-- `randomValAt` reads only the seed fields, never `pull`. -/
theorem PRNG.randomValAt_set_pull (p : PRNG) (x a b : Nat) :
    PRNG.randomValAt { p with pull := x } a b = p.randomValAt a b := rfl

/-- The generated value depends on the pull field and the peek argument
only through their sum: previewing `peek` steps ahead computes the same
value as having advanced the counter by `peek`. -/
theorem PRNG.randomValAt_pull_add_peek (p : PRNG) (a b : Nat) :
    p.randomValAt a b = p.randomValAt (a + b) 0 := by
  have h : ((a : ℚ) + (b : ℚ) + p.seedInt.getD p.seed * 4327)
      = (((a + b : Nat) : ℚ) + ((0 : Nat) : ℚ) + p.seedInt.getD p.seed * 4327) := by
    push_cast; ring
  simp only [PRNG.randomValAt]
  rw [h]

theorem PRNG.randomSeq_pull (p : PRNG) (n : Nat) :
    (p.randomSeq n).2 = { p with pull := p.pull + n } := by
  induction n generalizing p with
  | zero => simp [PRNG.randomSeq]
  | succ k ih =>
      simp only [PRNG.randomSeq, PRNG.random, if_pos rfl]
      rw [ih]
      simp [Nat.add_assoc, Nat.add_comm 1 k]

/-- The peek loop starting at offset `i + 1` produces exactly the values of
the advancing sequence taken from a state whose counter is `i` ahead, and
leaves the state untouched. -/
theorem PRNG.peekLoop_eq_randomSeq (n : Nat) :
    ∀ (p : PRNG) (i : Nat),
      PRNG.peekLoop p (i + 1) n
        = ((PRNG.randomSeq { p with pull := p.pull + i } n).1, p) := by
  induction n with
  | zero => intro p i; rfl
  | succ k ih =>
      intro p i
      simp only [PRNG.peekLoop, PRNG.randomSeq, PRNG.random,
        if_neg (Nat.succ_ne_zero i), if_pos rfl]
      rw [ih p (i + 1)]
      simp only [PRNG.randomValAt_set_pull]
      rw [PRNG.randomValAt_pull_add_peek]
      simp [Nat.add_assoc, Nat.add_comm 1 i]

/-- `peek depth` (for a sane depth) returns the same list as `depth`
advancing `random()` calls, without changing the state. -/
theorem PRNG.peek_eq_randomSeq (p : PRNG) (depth : Nat) (hd : depth ≤ 9000) :
    p.peek depth = some ((p.randomSeq depth).1, p) := by
  unfold PRNG.peek
  rw [if_neg (by omega)]
  have h := PRNG.peekLoop_eq_randomSeq depth p 0
  simpa using h

theorem str2intLoop_eq (codes : List Nat) :
    ∀ s c, str2intLoop codes (s, c)
      = (s + ((keptCodes codes).map (fun x => x - 32)).sum,
         c + (keptCodes codes).length) := by
  induction codes with
  | nil => intro s c; simp [str2intLoop, keptCodes]
  | cons x xs ih =>
      intro s c
      by_cases hx : x < 32 ∨ x > 127
      · have hf : (decide (32 ≤ x ∧ x ≤ 127)) = false := by
          simp only [decide_eq_false_iff_not]; omega
        simp only [str2intLoop, if_pos hx, keptCodes, List.filter_cons, hf,
          Bool.false_eq_true, if_false]
        exact ih s c
      · have hf : (decide (32 ≤ x ∧ x ≤ 127)) = true := by
          simp only [decide_eq_true_eq]; omega
        simp only [str2intLoop, if_neg hx, keptCodes, List.filter_cons, hf,
          if_true, List.map_cons, List.sum_cons, List.length_cons]
        rw [ih]
        refine Prod.ext ?_ ?_ <;> simp [keptCodes] <;> omega

end StupidRandom

namespace IdbBackend

/-- C2: for every array `H` of moment objects, including the empty array,
`historyDeltaDecode(historyDeltaEncode(H))` is deep-equal to `H`, assuming
the external diff/patch capability satisfies `patch(a, diff(a, b)) = b`. -/
theorem claimC2_delta_roundtrip {α : Type} (diff patch : α → α → α)
    (hpd : ∀ a b, patch a (diff a b) = b) (H : List α) :
    historyDeltaDecode patch (historyDeltaEncode diff H) = H := by
  cases H with
  | nil => rfl
  | cons h t =>
      simp only [historyDeltaEncode, historyDeltaDecode]
      exact congrArg (h :: ·) (deltaLoop_roundtrip diff patch hpd t h)

/-- Witness for C2 at the integer diff/patch pair `diff a b = b - a`,
`patch a d = a + d` and the concrete history `[3, 5, 2]`. -/
theorem claimC2_delta_roundtrip_witness :
    (∀ a b : ℤ, a + (b - a) = b)
    ∧ historyDeltaDecode (fun (a d : ℤ) => a + d)
        (historyDeltaEncode (fun (a b : ℤ) => b - a) [3, 5, 2]) = [3, 5, 2] :=
  ⟨fun a b => by ring,
   claimC2_delta_roundtrip (fun (a b : ℤ) => b - a) (fun (a d : ℤ) => a + d)
     (fun a b => by ring) [3, 5, 2]⟩

/-- C7: starting from an empty history, `create("Start")`,
`create("Forest")`, `goTo(0)`, `create("Cave")` leaves a history of length
exactly 2 with titles `["Start", "Cave"]`, active index 1; the "Forest"
moment is discarded. -/
theorem claimC7_start_forest_cave :
    scenarioStartForestCave.map
        (fun st => (st.history.map Moment.title, st.activeIndex, st.history.length))
      = .ok (["Start", "Cave"], 1, 2) := by
  rfl

end IdbBackend

namespace StupidRandom

/-- C8: for a PRNG constructed with seed 0.5 and pull 0, five sequential
`random()` calls yield the same five values, in order, as one `peek(5)` on
an identically constructed PRNG; `peek(5)` leaves the pull counter at 0
(the state it returns is the constructed state itself) while the five
`random()` calls leave it at 5. -/
theorem claimC8_random_five_eq_peek_five :
    PRNG.peek (PRNG.ofNumSeed (1/2) 0) 5
      = some (((PRNG.ofNumSeed (1/2) 0).randomSeq 5).1, PRNG.ofNumSeed (1/2) 0)
    ∧ ((PRNG.ofNumSeed (1/2) 0).randomSeq 5).2.pull = 5 := by
  refine ⟨PRNG.peek_eq_randomSeq _ 5 (by norm_num), ?_⟩
  rw [PRNG.randomSeq_pull]
  rfl

/-- C10: `randomFloat` validates its `peek` argument but never forwards
it: for every valid `(min, max, peek)` with a non-zero `peek`, the call
advances the pull counter by exactly 1 and computes the same value as it
would for `peek = 0`, whereas `random(peek)` itself would not have
advanced the counter. -/
theorem claimC10_randomFloat_ignores_peek (p : PRNG) (mn mx : ℚ) (pk : Nat)
    (hpk : pk ≠ 0) :
    (p.randomFloat mn mx pk).2.pull = p.pull + 1
    ∧ (p.randomFloat mn mx pk).1 = (p.randomFloat mn mx 0).1
    ∧ (p.random pk).2 = p := by
  refine ⟨?_, rfl, ?_⟩
  · simp [PRNG.randomFloat, PRNG.random]
  · simp [PRNG.random, if_neg hpk]

/-- Witness for C10 at seed 0.5, pull 0, `(min, max, peek) = (0, 1, 3)`. -/
theorem claimC10_randomFloat_ignores_peek_witness :
    (3 : Nat) ≠ 0
    ∧ ((PRNG.ofNumSeed (1/2) 0).randomFloat 0 1 3).2.pull
        = (PRNG.ofNumSeed (1/2) 0).pull + 1 :=
  ⟨by decide,
   (claimC10_randomFloat_ignores_peek (PRNG.ofNumSeed (1/2) 0) 0 1 3 (by decide)).1⟩

end StupidRandom

namespace StupidRandom

theorem mem_keptCodes {codes : List Nat} {x : Nat} (hx : x ∈ keptCodes codes) :
    32 ≤ x ∧ x ≤ 127 := by
  have h := List.mem_filter.mp hx
  simpa using h.2

theorem keptSum_le (codes : List Nat) :
    keptSum codes ≤ 95 * (keptCodes codes).length := by
  induction codes with
  | nil => simp [keptSum, keptCodes]
  | cons x xs ih =>
      by_cases hx : 32 ≤ x ∧ x ≤ 127
      · have hf : (decide (32 ≤ x ∧ x ≤ 127)) = true := by
          simp only [decide_eq_true_eq]; exact hx
        simp only [keptSum, keptCodes, List.filter_cons, hf, if_true,
          List.map_cons, List.sum_cons, List.length_cons] at *
        omega
      · have hf : (decide (32 ≤ x ∧ x ≤ 127)) = false := by
          simp only [decide_eq_false_iff_not]; exact hx
        simpa only [keptSum, keptCodes, List.filter_cons, hf,
          Bool.false_eq_true, if_false] using ih

theorem str2int_eval (codes : List Nat) :
    str2int codes
      = if (keptCodes codes).length = 0 then 1/4
        else ((keptSum codes : ℚ) / ((keptCodes codes).length : ℚ)) / 127 + 1/4 := by
  have hloop := str2intLoop_eq codes 0 0
  simp only [Nat.zero_add] at hloop
  simp only [str2int, hloop, keptSum]

/-- C9 counterexample: for the empty string (no countable characters)
`str2int` returns 0.25 — the lower endpoint of the `[0.25, 1]` seed
interval — and not the interval's fixed midpoint `(0.25 + 1)/2 = 0.625`
asserted by the claim. -/
theorem claimC9_counterexample :
    str2int [] = 1/4 ∧ str2int [] ≠ (1/4 + 1) / 2 := by
  constructor
  · norm_num [str2int, str2intLoop]
  · norm_num [str2int, str2intLoop]

/-- C9 (amended): for every string, `str2int` returns a value in
`[0.25, 1]`, obtained (when any character survives the filter) as
`avg / 127 + 0.25` where `avg` is the average of `code - 32` over exactly
the characters with `32 ≤ code ≤ 127`; when every character is filtered
out, including for the empty string, it returns the interval's lower
endpoint `0.25` (not its midpoint). -/
theorem claimC9_str2int_range (codes : List Nat) :
    (1/4 : ℚ) ≤ str2int codes ∧ str2int codes ≤ 1
    ∧ (keptCodes codes = [] → str2int codes = 1/4)
    ∧ (keptCodes codes ≠ [] →
        str2int codes
          = ((keptSum codes : ℚ) / ((keptCodes codes).length : ℚ)) / 127 + 1/4) := by
  have heval := str2int_eval codes
  by_cases hn : (keptCodes codes).length = 0
  · have hval : str2int codes = 1/4 := by rw [heval, if_pos hn]
    have hk : keptCodes codes = [] := List.length_eq_zero.mp hn
    exact ⟨le_of_eq hval.symm, by rw [hval]; norm_num, fun _ => hval,
      fun hne => absurd hk hne⟩
  · have hval : str2int codes
        = ((keptSum codes : ℚ) / ((keptCodes codes).length : ℚ)) / 127 + 1/4 := by
      rw [heval, if_neg hn]
    have hnpos : (0 : ℚ) < ((keptCodes codes).length : ℚ) := by
      exact_mod_cast Nat.pos_of_ne_zero hn
    have hbound : ((keptSum codes : ℕ) : ℚ) ≤ 95 * ((keptCodes codes).length : ℚ) := by
      exact_mod_cast keptSum_le codes
    have hdivb : ((keptSum codes : ℕ) : ℚ) / ((keptCodes codes).length : ℚ) ≤ 95 :=
      (div_le_iff₀ hnpos).mpr (by linarith)
    have hdivnn : (0 : ℚ) ≤ ((keptSum codes : ℕ) : ℚ) / ((keptCodes codes).length : ℚ) := by
      positivity
    refine ⟨?_, ?_, fun hk => absurd (List.length_eq_zero.mpr hk) hn, fun _ => hval⟩
    · rw [hval]; linarith
    · rw [hval]; linarith

/-- Witness for C9 at the all-filtered string consisting of one newline
character (code 10). -/
theorem claimC9_str2int_range_witness :
    keptCodes [10] = [] ∧ str2int [10] = 1/4 :=
  ⟨by decide, (claimC9_str2int_range [10]).2.2.1 (by decide)⟩

end StupidRandom

namespace IdbBackend

theorem windowFacts (H : List Moment) (T start i : Nat)
    (hsi : start ≤ i) (hit : i < start + T) (hstl : start + T ≤ H.length) :
    ((H.drop start).take T).length = T
    ∧ ((H.drop start).take T)[i - start]? = H[i]? := by
  constructor
  · rw [List.length_take, List.length_drop]
    omega
  · rw [List.getElem?_take_of_lt (by omega), List.getElem?_drop]
    congr 1
    omega

/-- C3 counterexample: with history `[A, B]`, active index 0 and retention
target 1, the window keeps `[A]` and excludes `B`, yet `B`'s title is not
appended to the `expired` accumulator (the source only expires moments
sliced off the front of the window, and silently drops the tail). -/
theorem claimC3_counterexample :
    (reduceHistorySize { index := 0, history := [sampleMoment, momentB], expired := [] } 1).history
      = [sampleMoment]
    ∧ ¬ ("B" ∈ (reduceHistorySize
          { index := 0, history := [sampleMoment, momentB], expired := [] } 1).expired) := by
  constructor
  · rfl
  · decide

/-- C3 (amended): for every state object with history length `L`, every
retention target `T` with `1 ≤ T ≤ L` and active index `i < L`,
`reduceHistorySize` keeps exactly `T` moments forming a contiguous window
`H[start .. start+T)` containing `i` (so relative order is preserved), the
adjusted index points at a moment equal to `H[i]`, and `expired` receives
the titles of exactly the moments dropped before the window start —
moments dropped after the window end are discarded without being
recorded.  (For `T = 0` the source returns the object untouched.) -/
theorem claimC3_reduceHistorySize (obj : SessionObj) (T i : Nat)
    (hidx : obj.index = (i : Int)) (hT1 : 1 ≤ T)
    (hTL : T ≤ obj.history.length) (hiL : i < obj.history.length) :
    ∃ start : Nat,
      start ≤ i ∧ i < start + T ∧ start + T ≤ obj.history.length
      ∧ (reduceHistorySize obj T).history = (obj.history.drop start).take T
      ∧ (reduceHistorySize obj T).history.length = T
      ∧ (reduceHistorySize obj T).index = (i : Int) - (start : Int)
      ∧ (reduceHistorySize obj T).history[i - start]? = obj.history[i]?
      ∧ (reduceHistorySize obj T).expired
          = obj.expired ++ (obj.history.take start).map Moment.title := by
  have hT0 : ¬ T = 0 := by omega
  have hmin : min obj.history.length T = T := Nat.min_eq_right hTL
  simp only [reduceHistorySize, if_neg hT0, hmin, hidx]
  split_ifs with h1 h2 h3
  · -- active index nearer the start, radius covers it: start = 0
    have hs : ((0 : Int)).toNat = 0 := rfl
    refine ⟨0, Nat.zero_le _, by omega, by omega, ?_, ?_, ?_, ?_, ?_⟩
    · rw [hs]
    · rw [hs]
      exact (windowFacts obj.history T 0 i (by omega) (by omega) (by omega)).1
    · omega
    · rw [hs]
      exact (windowFacts obj.history T 0 i (by omega) (by omega) (by omega)).2
    · rw [hs]
  · -- active index nearer the start, radius short of it: start = i - T/2
    have hs : ((i : Int) - ((T / 2 : Nat) : Int)).toNat = i - T / 2 := by omega
    refine ⟨i - T / 2, by omega, by omega, by omega, ?_, ?_, ?_, ?_, ?_⟩
    · rw [hs]
    · rw [hs]
      exact (windowFacts obj.history T (i - T / 2) i (by omega) (by omega) (by omega)).1
    · omega
    · rw [hs]
      exact (windowFacts obj.history T (i - T / 2) i (by omega) (by omega) (by omega)).2
    · rw [hs]
  · -- active index nearer the end, radius covers it: start = L - T
    have hs : (((obj.history.length : Nat) : Int) - ((T : Nat) : Int)).toNat
        = obj.history.length - T := by omega
    refine ⟨obj.history.length - T, by omega, by omega, by omega, ?_, ?_, ?_, ?_, ?_⟩
    · rw [hs]
    · rw [hs]
      exact (windowFacts obj.history T (obj.history.length - T) i (by omega) (by omega) (by omega)).1
    · omega
    · rw [hs]
      exact (windowFacts obj.history T (obj.history.length - T) i (by omega) (by omega) (by omega)).2
    · rw [hs]
  · -- active index nearer the end, radius short of the end: start = i - T/2
    have hs : ((i : Int) - ((T / 2 : Nat) : Int)).toNat = i - T / 2 := by omega
    refine ⟨i - T / 2, by omega, by omega, by omega, ?_, ?_, ?_, ?_, ?_⟩
    · rw [hs]
    · rw [hs]
      exact (windowFacts obj.history T (i - T / 2) i (by omega) (by omega) (by omega)).1
    · omega
    · rw [hs]
      exact (windowFacts obj.history T (i - T / 2) i (by omega) (by omega) (by omega)).2
    · rw [hs]

/-- Witness for C3 at the two-moment snapshot `sessionAB`, target 1,
active index 1 (the window is `[B]`, starting at 1, expiring `A`). -/
theorem claimC3_reduceHistorySize_witness :
    ∃ start : Nat,
      start ≤ 1 ∧ 1 < start + 1 ∧ start + 1 ≤ sessionAB.history.length
      ∧ (reduceHistorySize sessionAB 1).history = (sessionAB.history.drop start).take 1
      ∧ (reduceHistorySize sessionAB 1).history.length = 1
      ∧ (reduceHistorySize sessionAB 1).index = ((1 : Nat) : Int) - (start : Int)
      ∧ (reduceHistorySize sessionAB 1).history[1 - start]? = sessionAB.history[1]?
      ∧ (reduceHistorySize sessionAB 1).expired
          = sessionAB.expired ++ (sessionAB.history.take start).map Moment.title :=
  claimC3_reduceHistorySize sessionAB 1 1 rfl (by decide) (by decide) (by decide)

end IdbBackend

namespace IdbBackend

theorem momentActivateIndex_error_of_oob (st : HState) (idx : Int)
    (hne : st.history.length ≠ 0)
    (h : idx < 0 ∨ (st.history.length : Int) ≤ idx) :
    momentActivateIndex st idx
      = .error "moment activation attempted with out-of-bounds index" := by
  unfold momentActivateIndex
  rw [if_neg hne, if_pos h]

theorem momentActivateIndex_ok_of_inbounds (st : HState) (idx : Int)
    (hne : st.history.length ≠ 0)
    (h : ¬(idx < 0 ∨ (st.history.length : Int) ≤ idx)) :
    ∃ st2, momentActivateIndex st idx = .ok st2 := by
  unfold momentActivateIndex
  rw [if_neg hne, if_neg h]
  have hlt : idx.toNat < st.history.length := by omega
  rw [List.getElem?_eq_getElem hlt]
  exact ⟨_, rfl⟩

/-- C5 counterexample: the snapshot `{history: [A], index: 5}` satisfies
none of the claimed error conditions, yet `stateUnmarshal` throws on it
(the out-of-range index is rejected by `momentActivate`). -/
theorem claimC5_counterexample :
    ((stateUnmarshal (fun a _ => a) emptyHState
        (some { index := some 5, history := some [sampleMoment], delta := none,
                expired := none, seed := none })).2).isSome = true
    ∧ claimedUnmarshalError
        (some { index := some 5, history := some [sampleMoment], delta := none,
                expired := none, seed := none }) = false := by
  constructor
  · rfl
  · rfl

end IdbBackend

namespace IdbBackend

theorem claimedUnmarshalError_true_iff (o : MarshalObj) :
    claimedUnmarshalError (some o) = true ↔
      (o.delta.isSome = true ∧ o.history.isSome = true)
      ∨ ((o.delta.isSome = true ∧ (o.delta.getD []).length = 0)
         ∨ (o.history.isSome = true ∧ (o.history.getD []).length = 0)
         ∨ (¬(o.delta.isSome = true) ∧ ¬(o.history.isSome = true)))
      ∨ o.index.isNone = true := by
  rcases o with ⟨idx, hist, delta, exp, seed⟩
  cases idx <;> cases hist <;> cases delta <;>
    simp [claimedUnmarshalError]

end IdbBackend

namespace IdbBackend

/-- C5 (amended): `stateUnmarshal` throws exactly when the input is
null/undefined, carries both or neither of `delta`/`history` (or the one
present is empty), lacks an `index` property, or — beyond the claimed
list — when the index is out of range for the restored history; in the
claimed validation cases the in-memory history state is left unmodified,
but the out-of-range throw happens only after the history fields have
already been replaced. -/
theorem claimC5_stateUnmarshal (patch : Moment → Moment → Moment) (st : HState)
    (stateObj : Option MarshalObj) :
    (stateUnmarshal patch st stateObj).2.isSome
      = (claimedUnmarshalError stateObj || unmarshalIndexOutOfRange patch stateObj)
    ∧ (claimedUnmarshalError stateObj = true →
        (stateUnmarshal patch st stateObj).1 = st) := by
  cases stateObj with
  | none => exact ⟨rfl, fun _ => rfl⟩
  | some o =>
      by_cases c1 : o.delta.isSome = true ∧ o.history.isSome = true
      · have hred : stateUnmarshal patch st (some o)
            = (st, some "state object has both compressed and uncompressed history") := by
          simp only [stateUnmarshal]
          rw [if_pos c1]
        have hclaim : claimedUnmarshalError (some o) = true :=
          (claimedUnmarshalError_true_iff o).mpr (Or.inl c1)
        rw [hred, hclaim]
        exact ⟨rfl, fun _ => rfl⟩
      · by_cases c2 : (o.delta.isSome = true ∧ (o.delta.getD []).length = 0)
            ∨ (o.history.isSome = true ∧ (o.history.getD []).length = 0)
            ∨ (¬(o.delta.isSome = true) ∧ ¬(o.history.isSome = true))
        · have hred : stateUnmarshal patch st (some o)
              = (st, some "state object has no history or history is empty") := by
            simp only [stateUnmarshal]
            rw [if_neg c1, if_pos c2]
          have hclaim : claimedUnmarshalError (some o) = true :=
            (claimedUnmarshalError_true_iff o).mpr (Or.inr (Or.inl c2))
          rw [hred, hclaim]
          exact ⟨rfl, fun _ => rfl⟩
        · by_cases c3 : o.index.isNone = true
          · have hred : stateUnmarshal patch st (some o)
                = (st, some "state object has no index") := by
              simp only [stateUnmarshal]
              rw [if_neg c1, if_neg c2, if_pos c3]
            have hclaim : claimedUnmarshalError (some o) = true :=
              (claimedUnmarshalError_true_iff o).mpr (Or.inr (Or.inr c3))
            rw [hred, hclaim]
            exact ⟨rfl, fun _ => rfl⟩
          · -- every claimed validation passes
            have hclaimF : claimedUnmarshalError (some o) = false := by
              rcases h : claimedUnmarshalError (some o) with _ | _
              · rfl
              · rcases (claimedUnmarshalError_true_iff o).mp h with h1 | h2 | h3
                · exact absurd h1 c1
                · exact absurd h2 c2
                · exact absurd h3 c3
            have hne : (unmarshalRestore patch st o).history.length ≠ 0 := by
              show (unmarshalNewHistory patch o).length ≠ 0
              unfold unmarshalNewHistory
              rcases hh : o.history with _ | hl
              · rcases hd : o.delta with _ | dl
                · exact absurd ⟨by simp [hd], by simp [hh]⟩ (fun hc => c2 (Or.inr (Or.inr hc)))
                · rcases dl with _ | ⟨d0, ds⟩
                  · exact absurd ⟨by simp [hd], by simp [hd]⟩ (fun hc => c2 (Or.inl hc))
                  · simp [historyDeltaDecode]
              · rcases hl with _ | ⟨m0, ms⟩
                · exact absurd ⟨by simp [hh], by simp [hh]⟩ (fun hc => c2 (Or.inr (Or.inl hc)))
                · simp
            have hred : stateUnmarshal patch st (some o)
                = (match momentActivateIndex (unmarshalRestore patch st o) (o.index.getD 0) with
                   | .error e => (unmarshalRestore patch st o, some e)
                   | .ok st2 => (st2, none)) := by
              simp only [stateUnmarshal]
              rw [if_neg c1, if_neg c2, if_neg c3]
            by_cases hoor : o.index.getD 0 < 0
                ∨ (((unmarshalRestore patch st o).history.length : Int)) ≤ o.index.getD 0
            · have herr := momentActivateIndex_error_of_oob
                (unmarshalRestore patch st o) (o.index.getD 0) hne hoor
              rw [hred, herr]
              refine ⟨?_, fun hc => absurd hc (by simp [hclaimF])⟩
              simp only [Option.isSome_some, unmarshalIndexOutOfRange, hclaimF,
                Bool.not_false, Bool.true_and]
              rcases hoor with h | h
              · simp [h]
              · have hb : ((unmarshalNewHistory patch o).length : Int) ≤ o.index.getD 0 := h
                simp [hb]
            · obtain ⟨st2, hok⟩ := momentActivateIndex_ok_of_inbounds
                (unmarshalRestore patch st o) (o.index.getD 0) hne hoor
              rw [hred, hok]
              refine ⟨?_, fun hc => absurd hc (by simp [hclaimF])⟩
              push_neg at hoor
              have h2 : o.index.getD 0 < ((unmarshalNewHistory patch o).length : Int) := hoor.2
              have ha : ¬(o.index.getD 0 < 0) := by omega
              have hb : ¬(((unmarshalNewHistory patch o).length : Int) ≤ o.index.getD 0) := by
                omega
              simp only [Option.isSome_none, unmarshalIndexOutOfRange, hclaimF,
                Bool.not_false, Bool.true_and]
              simp [ha, hb]

end IdbBackend

namespace IdbBackend

/-- Witness for C5 at the null snapshot: the throw is flagged and the
state is untouched. -/
theorem claimC5_stateUnmarshal_witness :
    (stateUnmarshal (fun a _ => a) emptyHState none).2.isSome
        = (claimedUnmarshalError none
            || unmarshalIndexOutOfRange (fun a _ => a) none)
    ∧ (stateUnmarshal (fun a _ => a) emptyHState none).1 = emptyHState :=
  ⟨(claimC5_stateUnmarshal (fun a _ => a) emptyHState none).1,
   (claimC5_stateUnmarshal (fun a _ => a) emptyHState none).2 rfl⟩

end IdbBackend

namespace IdbBackend

theorem find?_not_slot_and {α : Type} (slot k : Nat) (hne : ¬slot = k) :
    (fun (a : Nat × α) => !decide (a.1 = slot) && decide (a.1 = k))
      = (fun (e : Nat × α) => e.1 == k) := by
  funext a
  by_cases h : a.1 = k
  · simp [h]
    omega
  · simp [h]

theorem tableGet_delete {α : Type} (t : List (Nat × α)) (slot k : Nat) :
    tableGet (tableDelete t slot) k = if k = slot then none else tableGet t k := by
  induction t with
  | nil => by_cases hk : k = slot <;> simp [tableGet, tableDelete, hk]
  | cons e rest ih =>
      by_cases he : e.1 = slot <;> by_cases hk : k = slot <;>
        by_cases hek : e.1 = k <;>
        simp_all [tableGet, tableDelete, List.filter_cons, List.find?_cons] <;>
        first
        | omega
        | rw [find?_not_slot_and slot k (by omega)]

theorem tableGet_put {α : Type} (t : List (Nat × α)) (slot k : Nat) (v : α) :
    tableGet (tableAdd (tableDelete t slot) slot v) k
      = if k = slot then some v else tableGet t k := by
  induction t with
  | nil =>
      by_cases hk : k = slot <;> simp [tableGet, tableDelete, tableAdd, hk] <;> omega
  | cons e rest ih =>
      by_cases he : e.1 = slot <;> by_cases hk : k = slot <;>
        by_cases hek : e.1 = k <;>
        simp_all [tableGet, tableDelete, tableAdd, List.filter_cons, List.find?_cons] <;>
        first
        | omega
        | rw [find?_not_slot_and slot k (by omega)]

theorem slotInvariant_put {st : StoreState} (hInv : slotInvariant st) (slot : Nat)
    (v : SaveObj) (w : DetailsObj) (k : Nat) :
    (tableGet (tableAdd (tableDelete st.saves slot) slot v) k).isSome
      = (tableGet (tableAdd (tableDelete st.details slot) slot w) k).isSome := by
  rw [tableGet_put, tableGet_put]
  by_cases hk : k = slot
  · simp [hk]
  · simpa [hk] using hInv k

end IdbBackend

namespace IdbBackend

/-- C1 counterexample: from an open, unlocked store, `clearAll` performs
its two table-clearing accesses with the lock flag still `false` — the
source checks the lock but never acquires it there — so the lock is not
held for the duration of every mutating operation. -/
theorem claimC1_counterexample :
    (clearAll sampleStore).2.2.length = 2
    ∧ ¬ lockHeldThroughout (clearAll sampleStore).2.2 := by
  constructor
  · rfl
  · intro h
    exact absurd (h (true, false) (by decide)) (by decide)

/-- C1 (amended): with the database already open, `setItem` and
`deleteItem` perform every table-write access with the lock held and
leave it released, while `clearAll` — though it rejects when locked —
performs its writes without ever setting the lock; and any of the three
requested while the lock is held returns the undefined rejection without
touching the state. -/
theorem claimC1_lock_discipline (diffFn : Moment → Moment → Moment)
    (st : StoreState) (hOpen : st.isOpen = true) (slot slot2 : Nat)
    (saveObj : Option SaveObj) (details : Option DetailsObj) :
    writesLocked (setItem diffFn st slot saveObj details).2.2
    ∧ (st.lock = false → (setItem diffFn st slot saveObj details).2.1.lock = false)
    ∧ writesLocked (deleteItem st slot2).2.2
    ∧ (st.lock = false → (deleteItem st slot2).2.1.lock = false)
    ∧ (st.lock = false → ∀ a ∈ (clearAll st).2.2, a.2 = false)
    ∧ (st.lock = true →
        setItem diffFn st slot saveObj details = (.rejected, st, [])
        ∧ deleteItem st slot2 = (.rejected, st, [])
        ∧ clearAll st = (.rejected, st, [])) := by
  rcases hlock : st.lock with _ | _
  · refine ⟨?_, ?_, ?_, ?_, ?_, ?_⟩
    · rcases saveObj with _ | obj
      · simp [setItem, hlock, writesLocked]
      · rcases hh : obj.history with _ | hist
        · simp [setItem, hlock, hh, writesLocked]
        · simp [setItem, hlock, hh, hOpen, writesLocked]
    · intro _
      rcases saveObj with _ | obj
      · simp [setItem, hlock]
      · rcases hh : obj.history with _ | hist
        · simp [setItem, hlock, hh]
        · simp [setItem, hlock, hh, hOpen]
    · simp [deleteItem, getSaveDetails, hlock, hOpen, writesLocked]
    · intro _
      simp [deleteItem, getSaveDetails, hlock, hOpen]
    · intro _ a ha
      simp [clearAll, hlock, hOpen] at ha
      simp [ha]
    · intro hc
      simp at hc
  · refine ⟨?_, ?_, ?_, ?_, ?_, ?_⟩
    · simp [setItem, hlock, writesLocked]
    · intro hc
      simp at hc
    · simp [deleteItem, hlock, writesLocked]
    · intro hc
      simp at hc
    · intro hc
      simp at hc
    · intro _
      exact ⟨by simp [setItem, hlock], by simp [deleteItem, hlock],
        by simp [clearAll, hlock]⟩

/-- Witness for C1 at the open, unlocked sample store writing slot 1. -/
theorem claimC1_lock_discipline_witness :
    sampleStore.isOpen = true
    ∧ writesLocked (setItem (fun a _ => a) sampleStore 1 (some sampleSave) none).2.2 :=
  ⟨rfl,
   (claimC1_lock_discipline (fun a _ => a) sampleStore rfl 1 0 (some sampleSave) none).1⟩

end IdbBackend


namespace IdbBackend

/-- C4 counterexample: running `getItem` to completion from a store whose
lock is held does not leave the lock as it was — the shared `makePromise`
success handler resets it to `false`, releasing a lock an in-flight
mutation still owns. -/
theorem claimC4_counterexample :
    sampleStoreLocked.lock = true
    ∧ ¬ ((getItem sampleStoreLocked 0).2.1.lock = sampleStoreLocked.lock) := by
  exact ⟨rfl, by decide⟩

/-- C4 (amended): `getItem` and `getAllSaves` never set the lock and
modify no table, but their completion handler unconditionally clears the
lock: they leave it `false` whatever it was, so they preserve the lock
only when it was already `false`. -/
theorem claimC4_reads_touch_lock (st : StoreState) (slot : Nat) :
    (getItem st slot).2.1.lock = false
    ∧ (getItem st slot).2.1.saves = st.saves
    ∧ (getItem st slot).2.1.details = st.details
    ∧ (∀ a ∈ (getItem st slot).2.2, a.1 = false)
    ∧ (getAllSaves st).2.1.lock = false
    ∧ (getAllSaves st).2.1.saves = st.saves
    ∧ (getAllSaves st).2.1.details = st.details
    ∧ (∀ a ∈ (getAllSaves st).2.2, a.1 = false)
    ∧ (st.lock = false → (getItem st slot).2.1.lock = st.lock
        ∧ (getAllSaves st).2.1.lock = st.lock) := by
  rcases hOpen : st.isOpen with _ | _
  · refine ⟨by simp [getItem, openDB, hOpen], by simp [getItem, openDB, hOpen],
      by simp [getItem, openDB, hOpen], ?_,
      by simp [getAllSaves, openDB, hOpen], by simp [getAllSaves, openDB, hOpen],
      by simp [getAllSaves, openDB, hOpen], ?_, ?_⟩
    · intro a ha
      simp [getItem, openDB, hOpen] at ha
      rcases ha with rfl | rfl <;> rfl
    · intro a ha
      simp [getAllSaves, openDB, hOpen] at ha
      rcases ha with rfl | rfl <;> rfl
    · intro hlock
      constructor <;> simp [getItem, getAllSaves, openDB, hOpen, hlock]
  · refine ⟨by simp [getItem, hOpen], by simp [getItem, hOpen],
      by simp [getItem, hOpen], ?_,
      by simp [getAllSaves, hOpen], by simp [getAllSaves, hOpen],
      by simp [getAllSaves, hOpen], ?_, ?_⟩
    · intro a ha
      simp [getItem, hOpen] at ha
      simp [ha]
    · intro a ha
      simp [getAllSaves, hOpen] at ha
      simp [ha]
    · intro hlock
      constructor <;> simp [getItem, getAllSaves, hOpen, hlock]

/-- Witness for C4: the locked sample store ends unlocked after a read. -/
theorem claimC4_reads_touch_lock_witness :
    (getItem sampleStoreLocked 3).2.1.lock = false :=
  (claimC4_reads_touch_lock sampleStoreLocked 3).1

/-- C6: every completed `setItem`, `deleteItem`, and `clearAll` preserves
the two-table invariant "a details record exists iff a saves record
exists for that slot", because each writes or deletes both table entries
for the affected slot(s) together. -/
theorem claimC6_two_table_invariant (diffFn : Moment → Moment → Moment)
    (st : StoreState) (hInv : slotInvariant st) (slot slot2 : Nat)
    (saveObj : Option SaveObj) (details : Option DetailsObj) :
    slotInvariant (setItem diffFn st slot saveObj details).2.1
    ∧ slotInvariant (deleteItem st slot2).2.1
    ∧ slotInvariant (clearAll st).2.1 := by
  rcases hlock : st.lock with _ | _
  · refine ⟨?_, ?_, ?_⟩
    · rcases saveObj with _ | obj
      · simpa [setItem, hlock] using hInv
      · rcases hh : obj.history with _ | hist
        · simpa [setItem, hlock, hh] using hInv
        · intro k
          rcases hOpen : st.isOpen with _ | _ <;>
            simp only [setItem, hlock, hh, hOpen, openDB, Bool.false_eq_true,
              if_false, if_true, Option.isNone_some] <;>
            exact slotInvariant_put hInv slot _ _ k
    · intro k
      rcases hOpen : st.isOpen with _ | _ <;>
        simp only [deleteItem, getSaveDetails, hlock, hOpen, openDB,
          Bool.false_eq_true, if_false, if_true] <;>
        rw [tableGet_delete, tableGet_delete] <;>
        by_cases hk : k = slot2 <;> simp [hk] <;> exact hInv k
    · intro k
      rcases hOpen : st.isOpen with _ | _ <;>
        simp [clearAll, hlock, hOpen, tableGet]
  · refine ⟨?_, ?_, ?_⟩
    · simpa [setItem, hlock] using hInv
    · simpa [deleteItem, hlock] using hInv
    · simpa [clearAll, hlock] using hInv

/-- Witness for C6 at the sample store (whose single slot 0 holds both
records), overwriting slot 0 and deleting slot 5. -/
theorem claimC6_two_table_invariant_witness :
    slotInvariant sampleStore
    ∧ slotInvariant (setItem (fun a _ => a) sampleStore 0 (some sampleSave) none).2.1 := by
  have hInv : slotInvariant sampleStore := by
    intro k
    rcases k with _ | k2
    · rfl
    · rfl
  exact ⟨hInv,
    (claimC6_two_table_invariant (fun a _ => a) sampleStore hInv 0 5
      (some sampleSave) none).1⟩

end IdbBackend
